import Mathlib

/-!
Shallow embedding of the HACK CPU emulator (Rust sources: `src/hack_cpu.rs`,
`src/instructions.rs`, `src/parser.rs`, `src/symbol_table.rs`).

Machine words (`Wrapping<i16>` in the source) are represented by their raw
unsigned 16-bit pattern as a `Nat` below 65536, with wrapping arithmetic made
explicit through `% 65536`.  Signed comparisons go through `toSigned`.
Strings are represented as lists of characters (`Line := List Char`), which
keeps every operation executable and kernel-reducible.  Rust panics (array
index out of bounds, `unwrap`, mnemonic-constructor failure) are modelled by
`Option`/dedicated outcome constructors.
-/

namespace Hack

/-- Raw 16-bit word addition, `Wrapping<i16> +`. -/
def add16 (x y : Nat) : Nat := (x + y) % 65536

/-- Raw 16-bit word subtraction, `Wrapping<i16> -`. -/
def sub16 (x y : Nat) : Nat := (x + 65536 - y) % 65536

/-- Two's-complement negation, `Wrapping<i16>::neg`. -/
def neg16 (x : Nat) : Nat := (65536 - x) % 65536

/-- Bitwise complement on a 16-bit word, `Wrapping<i16>::not`. -/
def not16 (x : Nat) : Nat := 65535 - x

/-- Bitwise and, `Wrapping<i16> &`. -/
def and16 (x y : Nat) : Nat := Nat.land x y

/-- Bitwise or, `Wrapping<i16> |`. -/
def or16 (x y : Nat) : Nat := Nat.lor x y

/-- Left shift by one bit, `Wrapping<i16> << 1` (high bit discarded). -/
def shl16 (x : Nat) : Nat := (x * 2) % 65536

/-- Right shift by one bit, `Wrapping<i16> >> 1`.  Rust's `>>` on a signed
integer is an arithmetic shift: the sign bit is replicated into the top bit. -/
def asr16 (x : Nat) : Nat := x / 2 + (if 32768 ≤ x then 32768 else 0)

/-- The signed (`i16`) value of a raw 16-bit word. -/
def toSigned (x : Nat) : Int := if x < 32768 then (x : Int) else (x : Int) - 65536

/-- Source `i16 as usize` on a 64-bit platform: sign extension of the 16-bit
pattern to 64 bits.  Words at or above 32768 (negative `i16`) map to huge
indices near `2^64`. -/
def asUsize (x : Nat) : Nat := if x < 32768 then x else 18446744073709486080 + x

/-- Source `parser.rs`: `pub const MAX_RAM: usize = 24577;` -/
def MAX_RAM : Nat := 24577

/-- A source line, modelled as its character list. -/
abbrev Line := List Char

/-- Source `instructions.rs`: the `Destination` enum. -/
inductive Destination where
  | None | A | M | D | MD | AM | AD | AMD
deriving DecidableEq, Repr

/-- Source `instructions.rs`: the `Jump` enum. -/
inductive Jump where
  | None | JGT | JEQ | JGE | JLT | JNE | JLE | JMP
deriving DecidableEq, Repr

/-- Source `instructions.rs`: the `Comp` enum (34 cases). -/
inductive Comp where
  | Zero | One | MinusOne | D | A | NotD | NotA | MinusD | MinusA
  | DPlusOne | APlusOne | DMinusOne | AMinusOne
  | DPlusA | DMinusA | AMinusD | DAndA | DOrA
  | M | NotM | MinusM | MPlusOne | MMinusOne
  | DPlusM | DMinusM | MMinusD | DAndM | DOrM
  | LeftShiftA | LeftShiftD | LeftShiftM
  | RightShiftA | RightShiftD | RightShiftM
deriving DecidableEq, Repr

/-- Source `instructions.rs`: `struct A { dest: i16 }`.  In the parser the field is
always produced from a resolved symbol-table value, hence non-negative; we
store the raw word. -/
structure AInstr where
  dest : Nat
deriving DecidableEq, Repr

/-- Source `instructions.rs`: `struct C { dest, comp, jump }`. -/
structure CInstr where
  dest : Destination
  comp : Comp
  jump : Jump
deriving DecidableEq, Repr

/-- Source `instructions.rs`: the `Instruction` enum. -/
inductive Instruction where
  | A (a : AInstr)
  | Label (l : Line)
  | C (c : CInstr)
  | None
deriving DecidableEq, Repr

/-- Source `Destination::new`: the eight mnemonic arms; any other string panics
(modelled as `none`). -/
def Destination.new (s : Line) : Option Destination :=
  if s = [] then some .None
  else if s = ['A'] then some .A
  else if s = ['M'] then some .M
  else if s = ['D'] then some .D
  else if s = ['M', 'D'] then some .MD
  else if s = ['A', 'M'] then some .AM
  else if s = ['A', 'D'] then some .AD
  else if s = ['A', 'M', 'D'] then some .AMD
  else none

/-- Source `Jump::new`: the eight mnemonic arms; any other string panics
(modelled as `none`). -/
def Jump.new (s : Line) : Option Jump :=
  if s = [] then some .None
  else if s = ['J', 'G', 'T'] then some .JGT
  else if s = ['J', 'E', 'Q'] then some .JEQ
  else if s = ['J', 'G', 'E'] then some .JGE
  else if s = ['J', 'L', 'T'] then some .JLT
  else if s = ['J', 'N', 'E'] then some .JNE
  else if s = ['J', 'L', 'E'] then some .JLE
  else if s = ['J', 'M', 'P'] then some .JMP
  else none

/-- Source `Comp::new`: the 34 mnemonic arms; any other string panics
(modelled as `none`). -/
def Comp.new (s : Line) : Option Comp :=
  if s = ['0'] then some .Zero
  else if s = ['1'] then some .One
  else if s = ['-', '1'] then some .MinusOne
  else if s = ['D'] then some .D
  else if s = ['A'] then some .A
  else if s = ['!', 'D'] then some .NotD
  else if s = ['!', 'A'] then some .NotA
  else if s = ['-', 'D'] then some .MinusD
  else if s = ['-', 'A'] then some .MinusA
  else if s = ['D', '+', '1'] then some .DPlusOne
  else if s = ['A', '+', '1'] then some .APlusOne
  else if s = ['D', '-', '1'] then some .DMinusOne
  else if s = ['A', '-', '1'] then some .AMinusOne
  else if s = ['D', '+', 'A'] then some .DPlusA
  else if s = ['D', '-', 'A'] then some .DMinusA
  else if s = ['A', '-', 'D'] then some .AMinusD
  else if s = ['D', '&', 'A'] then some .DAndA
  else if s = ['D', '|', 'A'] then some .DOrA
  else if s = ['M'] then some .M
  else if s = ['!', 'M'] then some .NotM
  else if s = ['-', 'M'] then some .MinusM
  else if s = ['M', '+', '1'] then some .MPlusOne
  else if s = ['M', '-', '1'] then some .MMinusOne
  else if s = ['D', '+', 'M'] then some .DPlusM
  else if s = ['D', '-', 'M'] then some .DMinusM
  else if s = ['M', '-', 'D'] then some .MMinusD
  else if s = ['D', '&', 'M'] then some .DAndM
  else if s = ['D', '|', 'M'] then some .DOrM
  else if s = ['A', '<', '<'] then some .LeftShiftA
  else if s = ['D', '<', '<'] then some .LeftShiftD
  else if s = ['M', '<', '<'] then some .LeftShiftM
  else if s = ['A', '>', '>'] then some .RightShiftA
  else if s = ['D', '>', '>'] then some .RightShiftD
  else if s = ['M', '>', '>'] then some .RightShiftM
  else none

/-- Source `C::new(dest, comp, jump)`: builds the three sub-fields; a failure in any
constructor is a panic (`none`).  (Rust evaluates `dest` first, so a bad
destination panics before `comp` is even examined; with `Option` composition
the overall result is `none` in every failing case, which is all the parser
claims depend on.) -/
def CInstr.new (dest comp jump : Line) : Option CInstr :=
  match Destination.new dest with
  | none => none
  | some d =>
    match Comp.new comp with
    | none => none
    | some cp =>
      match Jump.new jump with
      | none => none
      | some j => some ⟨d, cp, j⟩

/-- Source `A::new(&v.to_string())` where `v` is the `u16` fetched from the symbol
table: the decimal string of `v` re-parses as an `i16` exactly when
`v ≤ 32767`; otherwise `A::new` panics (`none`). -/
def AInstr.new (v : Nat) : Option AInstr :=
  if v ≤ 32767 then some ⟨v⟩ else none

/-- Source `hack_cpu.rs`: the `CPUState` registers and RAM.  RAM is a total function
from word index to raw word; the source's fixed array bound `MAX_RAM` is
enforced at each access (an out-of-range access is a Rust panic, `none`).
The symbol table and breakpoint set play no role in instruction execution
and are kept outside this structure. -/
structure CPUState where
  a : Nat
  d : Nat
  pc : Nat
  ram : Nat → Nat

/-- Source `self.ram[self.a.0 as usize]` as a guarded read. -/
def readRam (s : CPUState) : Option Nat :=
  if asUsize s.a < MAX_RAM then some (s.ram (asUsize s.a)) else none

/-- Source `self.ram[self.a.0 as usize] = v` as a guarded write. -/
def writeRam (s : CPUState) (v : Nat) : Option CPUState :=
  if asUsize s.a < MAX_RAM then
    some { s with ram := fun j => if j = asUsize s.a then v else s.ram j }
  else none

/-- The `match c.comp` block of `c_instruction`, producing `answer`.
`D-1` and `A-1` are `self.d + Wrapping(1)` / `self.a + Wrapping(1)` in the
source (lines 77-78), faithfully reproduced here. -/
def evalComp (c : Comp) (s : CPUState) : Option Nat :=
  match c with
  | .Zero => some 0
  | .One => some 1
  | .MinusOne => some 65535
  | .D => some s.d
  | .A => some s.a
  | .NotD => some (not16 s.d)
  | .NotA => some (not16 s.a)
  | .MinusD => some (neg16 s.d)
  | .MinusA => some (neg16 s.a)
  | .DPlusOne => some (add16 s.d 1)
  | .APlusOne => some (add16 s.a 1)
  | .DMinusOne => some (add16 s.d 1)
  | .AMinusOne => some (add16 s.a 1)
  | .DPlusA => some (add16 s.d s.a)
  | .DMinusA => some (sub16 s.d s.a)
  | .AMinusD => some (sub16 s.a s.d)
  | .DAndA => some (and16 s.d s.a)
  | .DOrA => some (or16 s.d s.a)
  | .M => readRam s
  | .NotM => (readRam s).map not16
  | .MinusM => (readRam s).map neg16
  | .MPlusOne => (readRam s).map (fun m => add16 m 1)
  | .MMinusOne => (readRam s).map (fun m => sub16 m 1)
  | .DPlusM => (readRam s).map (fun m => add16 s.d m)
  | .DMinusM => (readRam s).map (fun m => sub16 s.d m)
  | .MMinusD => (readRam s).map (fun m => sub16 m s.d)
  | .DAndM => (readRam s).map (fun m => and16 m s.d)
  | .DOrM => (readRam s).map (fun m => or16 m s.d)
  | .LeftShiftA => some (shl16 s.a)
  | .LeftShiftD => some (shl16 s.d)
  | .LeftShiftM => (readRam s).map shl16
  | .RightShiftA => some (asr16 s.a)
  | .RightShiftD => some (asr16 s.d)
  | .RightShiftM => (readRam s).map asr16

/-- The `match c.dest` block of `c_instruction`: stores `answer` into the
named targets.  For `M`-containing destinations the RAM write happens first,
at the index given by the *current* A register, before A itself is updated. -/
def applyDest (d : Destination) (answer : Nat) (s : CPUState) : Option CPUState :=
  match d with
  | .None => some s
  | .A => some { s with a := answer }
  | .M => writeRam s answer
  | .D => some { s with d := answer }
  | .MD => (writeRam s answer).map (fun s1 => { s1 with d := answer })
  | .AM => (writeRam s answer).map (fun s1 => { s1 with a := answer })
  | .AD => some { s with a := answer, d := answer }
  | .AMD => (writeRam s answer).map (fun s1 => { s1 with a := answer, d := answer })

/-- The `match c.jump` block of `c_instruction`: the new program counter.
Comparisons are against the signed value of `answer`; a taken jump reads
`self.a.0 as u16`, i.e. the raw word of the A register *after* the
destination stores. -/
def jumpPc (j : Jump) (answer : Nat) (s1 : CPUState) : Nat :=
  match j with
  | .None => (s1.pc + 1) % 65536
  | .JGT => if 0 < toSigned answer then s1.a else (s1.pc + 1) % 65536
  | .JEQ => if toSigned answer = 0 then s1.a else (s1.pc + 1) % 65536
  | .JGE => if 0 ≤ toSigned answer then s1.a else (s1.pc + 1) % 65536
  | .JLT => if toSigned answer < 0 then s1.a else (s1.pc + 1) % 65536
  | .JNE => if toSigned answer ≠ 0 then s1.a else (s1.pc + 1) % 65536
  | .JLE => if toSigned answer ≤ 0 then s1.a else (s1.pc + 1) % 65536
  | .JMP => s1.a

/-- Source `hack_cpu.rs::c_instruction`: compute `answer`, perform the destination
stores, then decide `pc` — failure (a RAM index panic) at either stage aborts. -/
def c_instruction (c : CInstr) (s : CPUState) : Option CPUState :=
  (evalComp c.comp s).bind (fun answer =>
    (applyDest c.dest answer s).map (fun s1 =>
      { s1 with pc := jumpPc c.jump answer s1 }))

/-- Source `hack_cpu.rs::a_instruction`: load A, advance `pc`. -/
def a_instruction (a : AInstr) (s : CPUState) : CPUState :=
  { s with a := a.dest, pc := (s.pc + 1) % 65536 }

/-- Source `hack_cpu.rs::interpret`: one instruction step. -/
def interpret (inst : Instruction) (s : CPUState) : Option CPUState :=
  match inst with
  | .A a => some (a_instruction a s)
  | .C c => c_instruction c s
  | .Label _ => some { s with pc := (s.pc + 1) % 65536 }
  | .None => some { s with pc := (s.pc + 1) % 65536 }

/-- Source `CPUState::new()`: zeroed registers and RAM. -/
def CPUState.new : CPUState :=
  { a := 0, d := 0, pc := 0, ram := fun _ => 0 }

/-! ### Parser embedding (`parser.rs`, `symbol_table.rs`) -/

/-- The symbol table's map, modelled as a function from names to addresses. -/
abbrev Table := Line → Option Nat

/-- Source `HashMap::insert` on the functional map (later inserts shadow earlier). -/
def tableInsert (t : Table) (k : Line) (v : Nat) : Table :=
  fun k' => if k' = k then some v else t k'

/-- Source `symbol_table.rs`: `SymbolTable { table, current_variable }`. -/
structure SymbolTable where
  table : Table
  current_variable : Nat

/-- The seed entries of `SymbolTable::new()`. -/
def seedEntries : List (Line × Nat) :=
  [ (['R', '0'], 0), (['R', '1'], 1), (['R', '2'], 2), (['R', '3'], 3)
  , (['R', '4'], 4), (['R', '5'], 5), (['R', '6'], 6), (['R', '7'], 7)
  , (['R', '8'], 8), (['R', '9'], 9), (['R', '1', '0'], 10), (['R', '1', '1'], 11)
  , (['R', '1', '2'], 12), (['R', '1', '3'], 13), (['R', '1', '4'], 14)
  , (['R', '1', '5'], 15)
  , (['S', 'C', 'R', 'E', 'E', 'N'], 16384)
  , (['K', 'B', 'D'], 24576)
  , (['S', 'P'], 0), (['L', 'C', 'L'], 1), (['A', 'R', 'G'], 2)
  , (['T', 'H', 'I', 'S'], 3), (['T', 'H', 'A', 'T'], 4) ]

/-- Source `SymbolTable::new()`: the seventeen architectural names (23 entries) and
`current_variable = 16`. -/
def SymbolTable.new : SymbolTable :=
  { table := seedEntries.foldl (fun t p => tableInsert t p.1 p.2) (fun _ => none)
  , current_variable := 16 }

/-- Source `line.starts_with(c)` for a single character. -/
def startsWithChar (l : Line) (c : Char) : Bool :=
  match l with
  | [] => false
  | c0 :: _ => c0 = c

/-- Source `line.ends_with(c)` for a single character. -/
def endsWithChar (l : Line) (c : Char) : Bool :=
  match l.getLast? with
  | some c0 => c0 = c
  | none => false

/-- Whitespace as used by `str::trim` (ASCII fragment; the emulator's input
is ASCII assembly text). -/
def isWS (c : Char) : Bool := c = ' ' || c = '\t' || c = '\n' || c = '\r'

/-- Source `str::trim`. -/
def trimLine (l : Line) : Line :=
  ((l.dropWhile isWS).reverse.dropWhile isWS).reverse

/-- Source `str::replace(' ', "")`. -/
def removeSpaces (l : Line) : Line := l.filter (fun c => !(c = ' '))

/-- Source `line.find("//")`: byte index of the first comment marker. -/
def findComment : Line → Option Nat
  | [] => none
  | c :: rest =>
    if c = '/' && (match rest with | c2 :: _ => c2 = '/' | [] => false) then some 0
    else (findComment rest).map (· + 1)

/-- One line of `clear_whitespace`: `none` for dropped (empty or pure-comment)
lines, otherwise the cleaned text (inline comment stripped, spaces removed). -/
def cleanLine (l : Line) : Option Line :=
  if l = [] then none
  else if startsWithChar l '/' && startsWithChar (l.drop 1) '/' then none
  else
    match findComment l with
    | some idx => some (removeSpaces (trimLine (l.take idx)))
    | none => some (removeSpaces l)

/-- Source `parser.rs::clear_whitespace`: dropped lines are compacted away (the
fixed array's trailing `String::new()` slots are inert in every later pass
and are not represented). -/
def clear_whitespace (lines : List Line) : List Line :=
  lines.filterMap cleanLine

/-- Is the line delimited as `(name)`? -/
def isLabelLine (l : Line) : Bool :=
  startsWithChar l '(' && endsWithChar l ')'

/-- Source `line[1..line.len() - 1]`. -/
def labelName (l : Line) : Line := (l.drop 1).dropLast

/-- First loop of `labels_and_variables`: insert every `(name)` at address
`(i - labels_count) as u16`, where `i` enumerates the cleaned lines and
`labels_count` counts the labels already seen. -/
def labelPass : List Line → Nat → Nat → Table → Table
  | [], _, _, t => t
  | line :: rest, i, labels_count, t =>
    if isLabelLine line then
      labelPass rest (i + 1) (labels_count + 1)
        (tableInsert t (labelName line) ((i - labels_count) % 65536))
    else labelPass rest (i + 1) labels_count t

/-- Source `u16::from_str`: optional leading `+`, then one or more decimal digits,
value at most 65535. -/
def parseU16 (s : Line) : Option Nat :=
  let t := match s with
    | '+' :: rest => rest
    | _ => s
  if t = [] then none
  else if t.all (fun c => 48 ≤ c.toNat && c.toNat ≤ 57) then
    let v := t.foldl (fun acc c => acc * 10 + (c.toNat - 48)) 0
    if v ≤ 65535 then some v else none
  else none

/-- Second loop of `labels_and_variables`: for every nonempty `@name` line
whose operand is not already bound, bind a numeric operand to its literal
value, otherwise allocate `current_variable` and advance the cursor. -/
def variablePass : List Line → SymbolTable → SymbolTable
  | [], t => t
  | line :: rest, t =>
    if line = [] then variablePass rest t
    else
      if startsWithChar line '@' && (t.table (line.drop 1)).isNone then
        match parseU16 (line.drop 1) with
        | some r => variablePass rest { t with table := tableInsert t.table (line.drop 1) r }
        | none =>
          variablePass rest
            { table := tableInsert t.table (line.drop 1) t.current_variable
            , current_variable := t.current_variable + 1 }
      else variablePass rest t

/-- Source `parser.rs::labels_and_variables`: label pass, then variable pass. -/
def labels_and_variables (lines : List Line) (t : SymbolTable) : SymbolTable :=
  variablePass lines { t with table := labelPass lines 0 0 t.table }

/-- The delimiter set of `split_line`'s regex `[ ,=;]`. -/
def isSplitChar (c : Char) : Bool :=
  c = ' ' || c = ',' || c = '=' || c = ';'

/-- Regex split, keeping empty segments (as Rust's `Regex::split` does). -/
def splitLineAux : Line → Line → List Line
  | [], acc => [acc.reverse]
  | c :: rest, acc =>
    if isSplitChar c then acc.reverse :: splitLineAux rest []
    else splitLineAux rest (c :: acc)

/-- Source `parser.rs::split_line`. -/
def split_line (l : Line) : List Line := splitLineAux l []

/-- The decimal digit characters, as produced by `u16::to_string`. -/
def digitChar (d : Nat) : Char :=
  if d = 0 then '0' else if d = 1 then '1' else if d = 2 then '2'
  else if d = 3 then '3' else if d = 4 then '4' else if d = 5 then '5'
  else if d = 6 then '6' else if d = 7 then '7' else if d = 8 then '8'
  else if d = 9 then '9' else '*'

/-- Fuel-driven decimal conversion (most significant digit first). -/
def decStrAux : Nat → Nat → Line
  | 0, _ => []
  | fuel + 1, n =>
    if n < 10 then [digitChar n]
    else decStrAux fuel (n / 10) ++ [digitChar (n % 10)]

/-- Source `u16::to_string` (or any unsigned decimal stringification): the decimal
digit string of `n`. -/
def decStr (n : Nat) : Line := decStrAux (n + 1) n

/-- Source `parser.rs`: `enum LineParsingError`. -/
inductive LineParsingError where
  | InvalidLine (idx : Nat) (line : Line)
deriving DecidableEq, Repr

/-- The observable result of `parse`: the instruction array (a total function,
`Instruction.None` beyond the program), the `Err(InvalidLine)` return, or a
process abort (Rust panic: failed `unwrap`, mnemonic-constructor panic, or a
slice index out of bounds). -/
inductive ParseOutcome where
  | ok (prog : Nat → Instruction)
  | err (e : LineParsingError)
  | abort

/-- Source `parsed_lines[i - offset] = instr`. -/
def updateProg (p : Nat → Instruction) (i : Nat) (v : Instruction) : Nat → Instruction :=
  fun j => if j = i then v else p j

/-- Spec-side helper: is the outcome a successfully returned array? -/
def ParseOutcome.isOk : ParseOutcome → Bool
  | .ok _ => true
  | _ => false

/-- The main decode loop of `parser.rs::parse` over the cleaned lines, with
the running line index `i` and label `offset`.  Branch order follows the
source: empty line, `@` line (symbol-table `unwrap` then `A::new`), label
line, compute line (two tokens split by `;`-presence; otherwise the
destination token is looked up in the symbol table — a failed lookup is
`Err(InvalidLine(i as u16, line))`, a successful one stringifies the address
into `C::new`'s destination; fewer than three tokens then panics on slice
indexing). -/
def parseLoop (table : Table) : List Line → Nat → Nat → (Nat → Instruction) → ParseOutcome
  | [], _, _, acc => .ok acc
  | line :: rest, i, offset, acc =>
    if line = [] then parseLoop table rest (i + 1) offset acc
    else if startsWithChar line '@' then
      match table (line.drop 1) with
      | none => .abort
      | some v =>
        match AInstr.new v with
        | none => .abort
        | some ai => parseLoop table rest (i + 1) offset (updateProg acc (i - offset) (.A ai))
    else if isLabelLine line then
      parseLoop table rest (i + 1) (offset + 1) acc
    else
      if (split_line line).length = 2 then
        match (if line.contains ';' then
                 CInstr.new [] ((split_line line).getD 0 []) ((split_line line).getD 1 [])
               else
                 CInstr.new ((split_line line).getD 0 []) ((split_line line).getD 1 []) []) with
        | none => .abort
        | some c => parseLoop table rest (i + 1) offset (updateProg acc (i - offset) (.C c))
      else
        match table ((split_line line).getD 0 []) with
        | none => .err (.InvalidLine (i % 65536) line)
        | some d =>
          if 3 ≤ (split_line line).length then
            match CInstr.new (decStr d) ((split_line line).getD 1 []) ((split_line line).getD 2 []) with
            | none => .abort
            | some c => parseLoop table rest (i + 1) offset (updateProg acc (i - offset) (.C c))
          else .abort

/-- Source `parser.rs::parse`: clean, run the pre-pass, then decode. -/
def parse (lines : List Line) (t : SymbolTable) : ParseOutcome :=
  let cleaned := clear_whitespace lines
  let t2 := labels_and_variables cleaned t
  parseLoop t2.table cleaned 0 0 (fun _ => .None)

/-- Spec-side helper: a cleaned line that reaches the compute-instruction
branch (nonempty, not an `@` line, not a label) and splits into exactly three
tokens. -/
def ThreeTokLine (l : Line) : Prop :=
  l ≠ [] ∧ startsWithChar l '@' = false ∧ isLabelLine l = false ∧
    (split_line l).length = 3

instance instDecidableThreeTokLine (l : Line) : Decidable (ThreeTokLine l) := by
  unfold ThreeTokLine
  infer_instance

/-- Spec-side helper: does the destination include the A register? -/
def destHasA (d : Destination) : Bool :=
  match d with
  | .A | .AM | .AD | .AMD => true
  | _ => false

/-- The run driver (`main.rs`): each cycle feeds `interpret` the instruction
at the current program counter, `self.cpu.interpret(&self.instructions[self.cpu.pc as usize])`. -/
def runN (prog : Nat → Instruction) : Nat → CPUState → Option CPUState
  | 0, s => some s
  | n + 1, s =>
    match interpret (prog s.pc) s with
    | none => none
    | some s' => runN prog n s'

/-- Number of label lines in a cleaned-line list. -/
def countLabels (ls : List Line) : Nat := (ls.filter (fun l => isLabelLine l)).length

/-- Spec-side helper: the boolean value of the jump condition against the
signed ALU result (`Jump.None` has no condition; it counts as false). -/
def jumpTaken (j : Jump) (answer : Nat) : Bool :=
  match j with
  | .None => false
  | .JGT => decide (0 < toSigned answer)
  | .JEQ => decide (toSigned answer = 0)
  | .JGE => decide (0 ≤ toSigned answer)
  | .JLT => decide (toSigned answer < 0)
  | .JNE => decide (toSigned answer ≠ 0)
  | .JLE => decide (toSigned answer ≤ 0)
  | .JMP => true

/-! ### Concrete fixtures -/

/-- The spec §8 concrete program `@2`, `D=A`, `@3`, `D=D+A`, `@0`, `M=D`. -/
def lines6 : List Line :=
  [ ['@', '2'], ['D', '=', 'A'], ['@', '3'], ['D', '=', 'D', '+', 'A']
  , ['@', '0'], ['M', '=', 'D'] ]

/-- The instruction array obtained by parsing `lines6` with a fresh table. -/
def prog6 : Nat → Instruction :=
  match parse lines6 SymbolTable.new with
  | .ok p => p
  | _ => fun _ => .None

/-- A forward-reference label program: `@END`, `0;JMP`, `D=1`, `(END)`, `D=1`. -/
def linesFwd : List Line :=
  [ ['@', 'E', 'N', 'D'], ['0', ';', 'J', 'M', 'P'], ['D', '=', '1']
  , ['(', 'E', 'N', 'D', ')'], ['D', '=', '1'] ]

/-- The instruction array obtained by parsing `linesFwd` with a fresh table. -/
def progFwd : Nat → Instruction :=
  match parse linesFwd SymbolTable.new with
  | .ok p => p
  | _ => fun _ => .None

/-- A program whose only line is a label. -/
def linesLbl0 : List Line := [['(', 'L', 'O', 'O', 'P', ')'], ['D', '=', '1']]

/-- A three-token compute line whose destination token is not a symbol:
`D=D+1;JGT`. -/
def lineD3 : Line := ['D', '=', 'D', '+', '1', ';', 'J', 'G', 'T']

/-- A three-token compute line whose destination token *is* a symbol:
`R3=D+1;JMP`. -/
def lineR3 : Line := ['R', '3', '=', 'D', '+', '1', ';', 'J', 'M', 'P']

/-- CPU state with RAM holding 7 everywhere (C10 fixture). -/
def sRam7 : CPUState := { a := 0, d := 0, pc := 0, ram := fun _ => 7 }

/-- CPU state whose A register holds the raw pattern 65534 (`i16` value -2). -/
def sNeg2 : CPUState := { a := 65534, d := 0, pc := 0, ram := fun _ => 0 }

/-- Zeroed CPU state (pc = 0). -/
def sZero : CPUState := { a := 0, d := 0, pc := 0, ram := fun _ => 0 }

/-- Like `sZero` but with pc = 5: agrees with `sZero` on A, D and RAM[A]. -/
def sPc5 : CPUState := { a := 0, d := 0, pc := 5, ram := fun _ => 0 }

/-- Like `sZero` but with a different word at RAM[3] (still agreeing on A, D,
RAM[A] and pc). -/
def sRamOff : CPUState := { a := 0, d := 0, pc := 0, ram := fun j => if j = 3 then 9 else 0 }

/-- The compute instruction `D=0` (dest `D`, comp `0`, no jump). -/
def cD0 : CInstr := ⟨Destination.D, Comp.Zero, Jump.None⟩

/-- The compute instruction `A=1;JGT`. -/
def cA1JGT : CInstr := ⟨Destination.A, Comp.One, Jump.JGT⟩

/-- The state produced by executing `cA1JGT` from `sZero`. -/
def sA1Fin : CPUState := { a := 1, d := 0, pc := 1, ram := fun _ => 0 }

/-! ### Claim theorems -/

/-- C2: for every CPU state, the comp mnemonics `D-1` and `A-1` evaluate to
the same results as `D+1` and `A+1` — subtract-one computes increment-by-one
over wrapping 16-bit arithmetic. -/
theorem c2_dec_computes_inc (s : CPUState) :
    evalComp Comp.DMinusOne s = evalComp Comp.DPlusOne s ∧
    evalComp Comp.AMinusOne s = evalComp Comp.APlusOne s ∧
    evalComp Comp.DMinusOne s = some ((s.d + 1) % 65536) ∧
    evalComp Comp.AMinusOne s = some ((s.a + 1) % 65536) :=
  ⟨rfl, rfl, rfl, rfl⟩

/-- C10: the decrement defect does not extend to the memory mirror: `M-1`
computes `RAM[A] - 1` under wrapping 16-bit arithmetic (exact decrement
whenever `RAM[A] ≥ 1`), even though the register forms `D-1` and `A-1`
compute increment. -/
theorem c10_m_minus_one_decrements (s : CPUState) (m : Nat)
    (h1 : s.a < MAX_RAM) (h2 : s.ram s.a = m) (h3 : m < 65536) :
    evalComp Comp.MMinusOne s = some ((m + 65535) % 65536) ∧
    (1 ≤ m → evalComp Comp.MMinusOne s = some (m - 1)) ∧
    evalComp Comp.DMinusOne s = some ((s.d + 1) % 65536) ∧
    evalComp Comp.AMinusOne s = some ((s.a + 1) % 65536) := by
  have ha32 : s.a < 32768 := by
    have := h1; unfold MAX_RAM at this; omega
  have hu : asUsize s.a = s.a := by unfold asUsize; rw [if_pos ha32]
  have hread : readRam s = some m := by
    unfold readRam
    rw [hu, if_pos h1, h2]
  have hmain : evalComp Comp.MMinusOne s = some ((m + 65535) % 65536) := by
    show (readRam s).map (fun m => sub16 m 1) = _
    rw [hread]
    show some (sub16 m 1) = _
    unfold sub16
    norm_num
  refine ⟨hmain, ?_, rfl, rfl⟩
  intro hm1
  rw [hmain]
  have : (m + 65535) % 65536 = m - 1 := by omega
  rw [this]

/-- C10 witness: at a state with A = 0 and RAM uniformly 7, `M-1` yields 6. -/
theorem c10_witness :
    evalComp Comp.MMinusOne sRam7 = some ((7 + 65535) % 65536) ∧
    (1 ≤ 7 → evalComp Comp.MMinusOne sRam7 = some (7 - 1)) ∧
    evalComp Comp.DMinusOne sRam7 = some ((sRam7.d + 1) % 65536) ∧
    evalComp Comp.AMinusOne sRam7 = some ((sRam7.a + 1) % 65536) :=
  c10_m_minus_one_decrements sRam7 7 (by decide) rfl (by decide)

/-- C8 counterexample: on the program `@2`, `D=A`, `@3`, `D=D+A`, `@0`,
`M=D`, three `interpret` calls from pc = 0 leave RAM[0] = 0 (not 5, as the
claim states); pc is 3. -/
theorem c8_counterexample :
    ((runN prog6 3 CPUState.new).map (fun s => (s.ram 0, s.pc))) = some (0, 3) ∧
    ((runN prog6 3 CPUState.new).map (fun s => s.ram 0)) ≠ some 5 := by
  constructor
  · decide
  · decide

/-- C8 amended: the program `@2`, `D=A`, `@3`, `D=D+A`, `@0`, `M=D` parses
successfully and, after SIX `interpret` calls from pc = 0 (one per
instruction), leaves RAM[0] = 5 with pc = 6; after only three calls RAM[0]
is still 0 and pc = 3. -/
theorem c8_amended :
    (parse lines6 SymbolTable.new).isOk = true ∧
    ((runN prog6 6 CPUState.new).map (fun s => (s.ram 0, s.pc))) = some (5, 6) ∧
    ((runN prog6 3 CPUState.new).map (fun s => (s.ram 0, s.pc))) = some (0, 3) := by
  refine ⟨by decide, by decide, by decide⟩

/-- C5 counterexample: at A holding the raw pattern 65534 (`i16` -2), the
comp `A>>` yields the raw pattern 65535 (`i16` -1): the result of a
logical-zero-fill shift would be 65534 / 2 = 32767 with a cleared top bit,
but the code's shift keeps the sign bit set. -/
theorem c5_counterexample :
    evalComp Comp.RightShiftA sNeg2 = some 65535 ∧
    (65535 : Nat) ≠ 65534 / 2 ∧ ¬ (65535 : Nat) < 32768 := by
  refine ⟨by decide, by decide, by decide⟩

/-- C5 amended: the right-shift comps `A>>`, `D>>`, `M>>` shift by one bit
ARITHMETICALLY on the `i16` interpretation (Rust `>>` on `Wrapping<i16>`):
the signed result is the floor of half the signed operand, and on a negative
operand the sign bit remains set (it is not zero-filled). -/
theorem c5_amended (s : CPUState) (ha : s.a < 65536) (hd : s.d < 65536) :
    evalComp Comp.RightShiftA s = some (asr16 s.a) ∧
    evalComp Comp.RightShiftD s = some (asr16 s.d) ∧
    (s.a < MAX_RAM → evalComp Comp.RightShiftM s = some (asr16 (s.ram s.a))) ∧
    (2 * toSigned (asr16 s.a) ≤ toSigned s.a ∧
      toSigned s.a ≤ 2 * toSigned (asr16 s.a) + 1) ∧
    (32768 ≤ s.a → 32768 ≤ asr16 s.a) ∧
    (s.a < 32768 → asr16 s.a = s.a / 2) := by
  refine ⟨rfl, rfl, ?_, ?_, ?_, ?_⟩
  · intro hm
    have ha32 : s.a < 32768 := by
      have := hm; unfold MAX_RAM at this; omega
    have hu : asUsize s.a = s.a := by unfold asUsize; rw [if_pos ha32]
    show (readRam s).map asr16 = _
    unfold readRam
    rw [hu, if_pos hm]
    rfl
  · unfold asr16 toSigned
    rcases Nat.lt_or_ge s.a 32768 with h | h
    · rw [if_neg (Nat.not_le.mpr h)]
      rw [if_pos (show s.a / 2 + 0 < 32768 by omega), if_pos h]
      omega
    · rw [if_pos h]
      rw [if_neg (show ¬ (s.a / 2 + 32768 < 32768) by omega),
        if_neg (show ¬ (s.a < 32768) by omega)]
      push_cast
      omega
  · intro h
    unfold asr16
    rw [if_pos h]
    omega
  · intro h
    unfold asr16
    rw [if_neg (Nat.not_le.mpr h)]
    omega

/-- Helper: a valid RAM index is below 32768, so `i16 as usize` is the raw
word itself. -/
theorem asUsize_small (x : Nat) (h : asUsize x < MAX_RAM) : asUsize x = x := by
  unfold asUsize at h ⊢
  unfold MAX_RAM at h
  split at h
  case isTrue h32 => rw [if_pos h32]
  case isFalse h32 => omega

/-- Helper: the destination stores leave `pc` untouched and set A to the
answer exactly when the destination names A. -/
theorem applyDest_a_pc (d : Destination) (answer : Nat) (s s1 : CPUState)
    (h : applyDest d answer s = some s1) :
    s1.a = (if destHasA d = true then answer else s.a) ∧ s1.pc = s.pc := by
  cases d <;>
    simp only [applyDest, writeRam, Option.map_some', Option.map_none'] at h
  case None => injection h with h'; subst h'; exact ⟨by simp [destHasA], rfl⟩
  case A => injection h with h'; subst h'; exact ⟨by simp [destHasA], rfl⟩
  case D => injection h with h'; subst h'; exact ⟨by simp [destHasA], rfl⟩
  case AD => injection h with h'; subst h'; exact ⟨by simp [destHasA], rfl⟩
  case M =>
    split at h
    · injection h with h'; subst h'; exact ⟨by simp [destHasA], rfl⟩
    · cases h
  case MD =>
    split at h
    · simp only [Option.map_some'] at h
      injection h with h'; subst h'; exact ⟨by simp [destHasA], rfl⟩
    · cases h
  case AM =>
    split at h
    · simp only [Option.map_some'] at h
      injection h with h'; subst h'; exact ⟨by simp [destHasA], rfl⟩
    · cases h
  case AMD =>
    split at h
    · simp only [Option.map_some'] at h
      injection h with h'; subst h'; exact ⟨by simp [destHasA], rfl⟩
    · cases h

/-- Helper: the `match c.jump` block equals "target if the condition holds,
else increment", where the target is the post-store A register. -/
theorem jumpPc_spec (j : Jump) (answer : Nat) (s1 : CPUState) :
    jumpPc j answer s1 =
      (if jumpTaken j answer = true then s1.a else (s1.pc + 1) % 65536) := by
  cases j <;> simp [jumpPc, jumpTaken]

/-- C1: for a C instruction whose jump condition holds of the ALU result,
the new pc is the A register as it stands after the destination stores —
the freshly computed answer when the destination includes A, the unchanged
A otherwise; when the condition fails the pc is incremented by 1. -/
theorem c1_jump_target_is_post_store_a (c : CInstr) (s s' : CPUState) (answer : Nat)
    (hc : evalComp c.comp s = some answer)
    (hr : c_instruction c s = some s') :
    (jumpTaken c.jump answer = true →
      s'.pc = (if destHasA c.dest = true then answer else s.a)) ∧
    (jumpTaken c.jump answer = false → s'.pc = (s.pc + 1) % 65536) := by
  obtain ⟨d, cp, j⟩ := c
  unfold c_instruction at hr
  dsimp at hc hr ⊢
  rw [hc] at hr
  simp only [Option.some_bind] at hr
  cases hd : applyDest d answer s with
  | none => rw [hd] at hr; simp at hr
  | some s1 =>
    rw [hd] at hr
    simp only [Option.map_some', Option.some.injEq] at hr
    subst hr
    obtain ⟨h1, h2⟩ := applyDest_a_pc d answer s s1 hd
    constructor
    · intro ht
      show jumpPc j answer s1 = _
      rw [jumpPc_spec, if_pos ht, h1]
    · intro ht
      show jumpPc j answer s1 = _
      rw [jumpPc_spec, if_neg (by simp [ht]), h2]

/-- C1 witness: `A=1;JGT` from the zero state stores 1 into A and jumps to
the freshly stored value 1. -/
theorem c1_witness :
    (jumpTaken cA1JGT.jump 1 = true →
      sA1Fin.pc = (if destHasA cA1JGT.dest = true then 1 else sZero.a)) ∧
    (jumpTaken cA1JGT.jump 1 = false → sA1Fin.pc = (sZero.pc + 1) % 65536) :=
  c1_jump_target_is_post_store_a cA1JGT sZero sA1Fin 1 rfl rfl

/-- Helper: `RAM[A]` reads agree between states agreeing on A and RAM[A]. -/
theorem readRam_agree (s1 s2 : CPUState) (hA : s1.a = s2.a)
    (hM : s1.ram s1.a = s2.ram s2.a) : readRam s1 = readRam s2 := by
  unfold readRam
  rw [hA] at hM ⊢
  split
  case isTrue hvalid =>
    rw [asUsize_small s2.a hvalid, hM]
  case isFalse hvalid => rfl

/-- Helper: the ALU answer agrees between states agreeing on A, D, RAM[A]. -/
theorem evalComp_agree (cp : Comp) (s1 s2 : CPUState) (hA : s1.a = s2.a)
    (hD : s1.d = s2.d) (hM : s1.ram s1.a = s2.ram s2.a) :
    evalComp cp s1 = evalComp cp s2 := by
  have hr := readRam_agree s1 s2 hA hM
  cases cp <;> simp [evalComp, hA, hD, hr]

/-- Helper: the destination stores agree (on A, D, RAM at the old A, pc)
between states agreeing on A, D, RAM[A], pc. -/
theorem applyDest_agree (d : Destination) (answer : Nat) (s1 s2 : CPUState)
    (hA : s1.a = s2.a) (hD : s1.d = s2.d) (hM : s1.ram s1.a = s2.ram s2.a)
    (hPC : s1.pc = s2.pc) :
    (applyDest d answer s1).map (fun t => (t.a, t.d, t.ram s1.a, t.pc)) =
    (applyDest d answer s2).map (fun t => (t.a, t.d, t.ram s2.a, t.pc)) := by
  simp only [hA] at hM
  cases d <;>
    simp only [applyDest, writeRam, hA, hD, hPC, Option.map_some', Option.map_none'] <;>
    try (rw [hM])
  all_goals
    split
  all_goals
    try rfl
  all_goals
    simp only [Option.map_some']
  all_goals
    rename_i hvalid
  all_goals
    have hu : asUsize s2.a = s2.a := asUsize_small s2.a hvalid
  all_goals
    simp [hu, hM, hD, hPC]

/-- Helper: the pc decision agrees between post-store states agreeing on A
and pc. -/
theorem jumpPc_agree (j : Jump) (answer : Nat) (t1 t2 : CPUState)
    (hA : t1.a = t2.a) (hPC : t1.pc = t2.pc) :
    jumpPc j answer t1 = jumpPc j answer t2 := by
  cases j <;> simp [jumpPc, hA, hPC]

/-- C4 counterexample: the claim quantifies over states agreeing only on A,
D and RAM[A]; two such states that differ in pc, running `D=0` (jump `None`),
end with different pcs (1 versus 6), so "the same new pc" fails. -/
theorem c4_counterexample :
    sZero.a = sPc5.a ∧ sZero.d = sPc5.d ∧ sZero.ram sZero.a = sPc5.ram sPc5.a ∧
    (c_instruction cD0 sZero).map (fun t => t.pc) = some 1 ∧
    (c_instruction cD0 sPc5).map (fun t => t.pc) = some 6 ∧
    (1 : Nat) ≠ 6 := by
  refine ⟨rfl, rfl, rfl, by decide, by decide, by decide⟩

/-- Helper equation: with the ALU answer known, `c_instruction` is the
destination store followed by the pc update. -/
theorem c_instruction_some (c : CInstr) (s : CPUState) (answer : Nat)
    (h : evalComp c.comp s = some answer) :
    c_instruction c s = (applyDest c.dest answer s).map
      (fun s1 => { s1 with pc := jumpPc c.jump answer s1 }) := by
  unfold c_instruction
  rw [h]
  rfl

/-- Helper equation: with the ALU answer failing (RAM panic), so does the
instruction. -/
theorem c_instruction_none (c : CInstr) (s : CPUState)
    (h : evalComp c.comp s = none) : c_instruction c s = none := by
  unfold c_instruction
  rw [h]
  rfl

/-- C4 amended: for any two CPU states that agree on A, D, RAM[A] AND pc,
executing the same compute instruction yields the same new A, new D, new
RAM[A] and new pc (execution is a pure function of (A, D, RAM[A], pc, comp,
dest, jump); without pc agreement the not-taken `pc + 1` outcome differs). -/
theorem c4_amended (c : CInstr) (s1 s2 : CPUState)
    (hA : s1.a = s2.a) (hD : s1.d = s2.d) (hM : s1.ram s1.a = s2.ram s2.a)
    (hPC : s1.pc = s2.pc) :
    (c_instruction c s1).map (fun t => (t.a, t.d, t.ram s1.a, t.pc)) =
    (c_instruction c s2).map (fun t => (t.a, t.d, t.ram s2.a, t.pc)) := by
  obtain ⟨d, cp, j⟩ := c
  have hev : evalComp cp s1 = evalComp cp s2 := evalComp_agree cp s1 s2 hA hD hM
  cases h2 : evalComp cp s2 with
  | none =>
    have h1 : evalComp cp s1 = none := by rw [hev, h2]
    rw [c_instruction_none ⟨d, cp, j⟩ s1 h1, c_instruction_none ⟨d, cp, j⟩ s2 h2]
    rfl
  | some answer =>
    have h1 : evalComp cp s1 = some answer := by rw [hev, h2]
    rw [c_instruction_some ⟨d, cp, j⟩ s1 answer h1,
      c_instruction_some ⟨d, cp, j⟩ s2 answer h2]
    have hap := applyDest_agree d answer s1 s2 hA hD hM hPC
    cases ha1 : applyDest d answer s1 with
    | none =>
      rw [ha1] at hap
      cases ha2 : applyDest d answer s2 with
      | none => rfl
      | some t2 => rw [ha2] at hap; simp at hap
    | some t1 =>
      rw [ha1] at hap
      cases ha2 : applyDest d answer s2 with
      | none => rw [ha2] at hap; simp at hap
      | some t2 =>
        rw [ha2] at hap
        simp only [Option.map_some', Option.some.injEq, Prod.mk.injEq] at hap
        obtain ⟨e1, e2, e3, e4⟩ := hap
        simp only [Option.map_some', Option.some.injEq, Prod.mk.injEq]
        rw [jumpPc_agree j answer t1 t2 e1 e4]
        exact ⟨e1, e2, e3, rfl⟩

/-- C4 witness: the amended statement at `D=0` on two states that agree on
A, D, RAM[A] and pc but differ in an unrelated RAM word. -/
theorem c4_witness :
    (c_instruction cD0 sZero).map (fun t => (t.a, t.d, t.ram sZero.a, t.pc)) =
    (c_instruction cD0 sRamOff).map (fun t => (t.a, t.d, t.ram sRamOff.a, t.pc)) :=
  c4_amended cD0 sZero sRamOff rfl rfl rfl rfl

/-- C5 witness: the amended statement at the concrete state with A = 65534. -/
theorem c5_witness :
    evalComp Comp.RightShiftA sNeg2 = some (asr16 sNeg2.a) ∧
    evalComp Comp.RightShiftD sNeg2 = some (asr16 sNeg2.d) ∧
    (sNeg2.a < MAX_RAM → evalComp Comp.RightShiftM sNeg2 = some (asr16 (sNeg2.ram sNeg2.a))) ∧
    (2 * toSigned (asr16 sNeg2.a) ≤ toSigned sNeg2.a ∧
      toSigned sNeg2.a ≤ 2 * toSigned (asr16 sNeg2.a) + 1) ∧
    (32768 ≤ sNeg2.a → 32768 ≤ asr16 sNeg2.a) ∧
    (sNeg2.a < 32768 → asr16 sNeg2.a = sNeg2.a / 2) :=
  c5_amended sNeg2 (by decide) (by decide)

/-- Helper: decimal digit characters are never `A`, `M` or `D`. -/
theorem digitChar_ne_AMD (d : Nat) :
    digitChar d ≠ 'A' ∧ digitChar d ≠ 'M' ∧ digitChar d ≠ 'D' := by
  unfold digitChar
  split_ifs <;> refine ⟨by decide, by decide, by decide⟩

/-- Helper: a decimal string is never empty. -/
theorem decStr_ne_nil (n : Nat) : decStr n ≠ [] := by
  unfold decStr decStrAux
  split
  · simp
  · simp

/-- Helper: every character of `decStrAux` output is a digit character. -/
theorem decStrAux_digits (fuel : Nat) :
    ∀ n c, c ∈ decStrAux fuel n → ∃ d, c = digitChar d := by
  induction fuel with
  | zero => intro n c hc; simp [decStrAux] at hc
  | succ fuel ih =>
    intro n c hc
    rw [decStrAux] at hc
    split at hc
    · simp at hc
      exact ⟨n, hc⟩
    · rcases List.mem_append.mp hc with h | h
      · exact ih _ _ h
      · simp at h
        exact ⟨n % 10, h⟩

/-- Helper: a decimal string differs from any list holding an `A`, `M` or
`D`. -/
theorem decStr_ne (n : Nat) (l : Line) (c : Char) (hc : c ∈ l)
    (hAMD : c = 'A' ∨ c = 'M' ∨ c = 'D') : decStr n ≠ l := by
  intro h
  have hmem : c ∈ decStr n := by rw [h]; exact hc
  obtain ⟨d, hd⟩ := decStrAux_digits (n + 1) n c hmem
  subst hd
  rcases hAMD with h' | h' | h'
  · exact (digitChar_ne_AMD d).1 h'
  · exact (digitChar_ne_AMD d).2.1 h'
  · exact (digitChar_ne_AMD d).2.2 h'

/-- Helper: the stringified symbol-table address is never one of the eight
destination mnemonics, so `Destination::new` panics on it. -/
theorem dest_new_decStr (n : Nat) : Destination.new (decStr n) = none := by
  unfold Destination.new
  rw [if_neg (decStr_ne_nil n)]
  rw [if_neg (decStr_ne n ['A'] 'A' (by simp) (Or.inl rfl))]
  rw [if_neg (decStr_ne n ['M'] 'M' (by simp) (Or.inr (Or.inl rfl)))]
  rw [if_neg (decStr_ne n ['D'] 'D' (by simp) (Or.inr (Or.inr rfl)))]
  rw [if_neg (decStr_ne n ['M', 'D'] 'M' (by simp) (Or.inr (Or.inl rfl)))]
  rw [if_neg (decStr_ne n ['A', 'M'] 'A' (by simp) (Or.inl rfl))]
  rw [if_neg (decStr_ne n ['A', 'D'] 'A' (by simp) (Or.inl rfl))]
  rw [if_neg (decStr_ne n ['A', 'M', 'D'] 'A' (by simp) (Or.inl rfl))]

/-- Helper: `CInstr.new` with a stringified address destination always
panics. -/
theorem cinstr_new_decStr (n : Nat) (t1 t2 : Line) :
    CInstr.new (decStr n) t1 t2 = none := by
  unfold CInstr.new
  rw [dest_new_decStr]

/-- C3: a cleaned compute line splitting into three tokens has its first
token resolved through the symbol table; when that lookup fails the whole
decode loop — and hence `parse` — returns exactly
`Err(InvalidLine(line_index, line_text))`, with no partial instruction
array. -/
theorem c3_three_token_dest_lookup_failure :
    (∀ (table : Table) (rest : List Line) (line t0 t1 t2 : Line) (i offset : Nat)
        (acc : Nat → Instruction),
      line ≠ [] → startsWithChar line '@' = false → isLabelLine line = false →
      split_line line = [t0, t1, t2] → table t0 = none →
      parseLoop table (line :: rest) i offset acc =
        .err (.InvalidLine (i % 65536) line)) ∧
    (∀ (lines rest : List Line) (line t0 t1 t2 : Line) (t : SymbolTable),
      clear_whitespace lines = line :: rest →
      line ≠ [] → startsWithChar line '@' = false → isLabelLine line = false →
      split_line line = [t0, t1, t2] →
      (labels_and_variables (line :: rest) t).table t0 = none →
      parse lines t = .err (.InvalidLine 0 line)) := by
  have main : ∀ (table : Table) (rest : List Line) (line t0 t1 t2 : Line)
      (i offset : Nat) (acc : Nat → Instruction),
      line ≠ [] → startsWithChar line '@' = false → isLabelLine line = false →
      split_line line = [t0, t1, t2] → table t0 = none →
      parseLoop table (line :: rest) i offset acc =
        .err (.InvalidLine (i % 65536) line) := by
    intro table rest line t0 t1 t2 i offset acc hne hat hlab hsplit htab
    rw [parseLoop]
    rw [if_neg hne, if_neg (by simp [hat]), if_neg (by simp [hlab])]
    rw [hsplit]
    rw [if_neg (by simp)]
    dsimp only [List.getD, List.get?, Option.getD]
    rw [htab]
  refine ⟨main, ?_⟩
  intro lines rest line t0 t1 t2 t hclean hne hat hlab hsplit htab
  unfold parse
  rw [hclean]
  have := main (labels_and_variables (line :: rest) t).table rest line t0 t1 t2
    0 0 (fun _ => .None) hne hat hlab hsplit htab
  simpa using this

/-- C3 witness: `D=D+1;JGT` as the sole (already clean) source line: its
destination token `D` is not in the fresh symbol table, and `parse` returns
`InvalidLine(0, "D=D+1;JGT")`. -/
theorem c3_witness :
    parseLoop SymbolTable.new.table [lineD3] 0 0 (fun _ => Instruction.None) =
      .err (.InvalidLine (0 % 65536) lineD3) ∧
    parse [lineD3] SymbolTable.new = .err (.InvalidLine 0 lineD3) := by
  constructor
  · exact c3_three_token_dest_lookup_failure.1 SymbolTable.new.table []
      lineD3 ['D'] ['D', '+', '1'] ['J', 'G', 'T'] 0 0 (fun _ => Instruction.None)
      (by decide) (by decide) (by decide) (by decide) (by decide)
  · exact c3_three_token_dest_lookup_failure.2 [lineD3] [] lineD3
      ['D'] ['D', '+', '1'] ['J', 'G', 'T'] SymbolTable.new
      (by decide) (by decide) (by decide) (by decide) (by decide) (by decide)

/-- C9: no three-token compute line can ever contribute a C instruction:
whenever the cleaned lines contain such a line, the decode loop never
returns an instruction array — it either aborts with `InvalidLine` (failed
symbol lookup of the destination token) or panics (`Destination::new`
applied to a stringified address, which is all digits and never a mnemonic). -/
theorem c9_three_token_never_ok (table : Table) (lines : List Line)
    (i offset : Nat) (acc : Nat → Instruction)
    (hbad : ∃ l ∈ lines, ThreeTokLine l) :
    (parseLoop table lines i offset acc).isOk = false := by
  induction lines generalizing i offset acc with
  | nil => simp at hbad
  | cons line rest ih =>
    obtain ⟨l, hl, hbadl⟩ := hbad
    rw [parseLoop]
    by_cases hne : line = []
    · rw [if_pos hne]
      refine ih i.succ offset acc ?_
      rcases List.mem_cons.mp hl with rfl | h
      · exact absurd hne hbadl.1
      · exact ⟨l, h, hbadl⟩
    · rw [if_neg hne]
      by_cases hat : startsWithChar line '@' = true
      · rw [if_pos hat]
        cases htab : table (line.drop 1) with
        | none => rfl
        | some v =>
          dsimp only
          cases hv : AInstr.new v with
          | none => rfl
          | some ai =>
            dsimp only
            refine ih i.succ offset _ ?_
            rcases List.mem_cons.mp hl with rfl | h
            · rw [hbadl.2.1] at hat; cases hat
            · exact ⟨l, h, hbadl⟩
      · rw [if_neg hat]
        by_cases hlab : isLabelLine line = true
        · rw [if_pos hlab]
          refine ih i.succ offset.succ acc ?_
          rcases List.mem_cons.mp hl with rfl | h
          · rw [hbadl.2.2.1] at hlab; cases hlab
          · exact ⟨l, h, hbadl⟩
        · rw [if_neg hlab]
          by_cases h2 : (split_line line).length = 2
          · rw [if_pos h2]
            cases hc : (if line.contains ';' then
                CInstr.new [] ((split_line line).getD 0 []) ((split_line line).getD 1 [])
              else
                CInstr.new ((split_line line).getD 0 []) ((split_line line).getD 1 []) []) with
            | none => rfl
            | some c =>
              dsimp only
              refine ih i.succ offset _ ?_
              rcases List.mem_cons.mp hl with rfl | h
              · have := hbadl.2.2.2; omega
              · exact ⟨l, h, hbadl⟩
          · rw [if_neg h2]
            cases htab : table ((split_line line).getD 0 []) with
            | none => rfl
            | some dv =>
              dsimp only
              by_cases h3 : 3 ≤ (split_line line).length
              · rw [if_pos h3, cinstr_new_decStr]
                rfl
              · rw [if_neg h3]
                rfl

/-- C9 witness: the line `R3=D+1;JMP` is a three-token compute line (its
destination token `R3` even resolves, to 3, whose stringification then
crashes `Destination::new`), and the decode loop on it never returns an
array. -/
theorem c9_witness :
    (parseLoop SymbolTable.new.table [lineR3] 0 0 (fun _ => Instruction.None)).isOk
      = false :=
  c9_three_token_never_ok SymbolTable.new.table [lineR3] 0 0
    (fun _ => Instruction.None) (by decide)

/-- Helper: the label pass leaves names untouched that no label line binds. -/
theorem labelPass_preserve (lines : List Line) (name : Line) :
    ∀ (i cnt : Nat) (t : Table),
    (∀ l ∈ lines, isLabelLine l = true → labelName l ≠ name) →
    labelPass lines i cnt t name = t name := by
  induction lines with
  | nil => intro i cnt t _; rfl
  | cons line rest ih =>
    intro i cnt t h
    rw [labelPass]
    by_cases hl : isLabelLine line = true
    · rw [if_pos hl]
      rw [ih _ _ _ (fun l hm hlab => h l (List.mem_cons_of_mem _ hm) hlab)]
      unfold tableInsert
      rw [if_neg (fun he => h line (List.mem_cons_self _ _) hl he.symm)]
    · rw [if_neg hl]
      exact ih _ _ _ (fun l hm hlab => h l (List.mem_cons_of_mem _ hm) hlab)

/-- Helper: the label pass binds the `k`-th line's label name to
`(i + k) - (cnt + labels-before-k)`, for any starting index `i` and label
count `cnt`, provided no later label line reuses the name. -/
theorem labelPass_formula (lines : List Line) :
    ∀ (k : Nat) (hk : k < lines.length) (i cnt : Nat) (t : Table),
    isLabelLine (lines.get ⟨k, hk⟩) = true →
    (∀ (j : Nat) (hj : j < lines.length), k < j →
      isLabelLine (lines.get ⟨j, hj⟩) = true →
      labelName (lines.get ⟨j, hj⟩) ≠ labelName (lines.get ⟨k, hk⟩)) →
    labelPass lines i cnt t (labelName (lines.get ⟨k, hk⟩)) =
      some ((i + k - (cnt + countLabels (lines.take k))) % 65536) := by
  induction lines with
  | nil => intro k hk; exact absurd hk (by simp)
  | cons line rest ih =>
    intro k hk i cnt t hlab huniq
    cases k with
    | zero =>
      have hl : isLabelLine line = true := hlab
      have hget0 : (line :: rest).get ⟨0, hk⟩ = line := rfl
      rw [hget0]
      rw [labelPass, if_pos hl]
      rw [labelPass_preserve rest _ _ _ _ ?later]
      case later =>
        intro l hm hlabl
        obtain ⟨⟨j, hj⟩, rfl⟩ := List.mem_iff_get.mp hm
        exact huniq (j + 1) (by simpa using Nat.succ_lt_succ hj) (Nat.succ_pos j) hlabl
      unfold tableInsert
      rw [if_pos rfl]
      simp [countLabels]
    | succ k =>
      have hk' : k < rest.length := by simpa using hk
      have hget : (line :: rest).get ⟨k + 1, hk⟩ = rest.get ⟨k, hk'⟩ := rfl
      rw [hget]
      rw [labelPass]
      have huniq' : ∀ (j : Nat) (hj : j < rest.length), k < j →
          isLabelLine (rest.get ⟨j, hj⟩) = true →
          labelName (rest.get ⟨j, hj⟩) ≠ labelName (rest.get ⟨k, hk'⟩) := by
        intro j hj hkj hlabj
        exact huniq (j + 1) (by simpa using Nat.succ_lt_succ hj)
          (Nat.succ_lt_succ hkj) hlabj
      by_cases hl : isLabelLine line = true
      · rw [if_pos hl]
        rw [ih k hk' (i + 1) (cnt + 1) _ hlab huniq']
        have hcount : countLabels (List.take (k + 1) (line :: rest)) =
            countLabels (List.take k rest) + 1 := by
          simp [countLabels, List.take_succ_cons, List.filter_cons, hl]
        rw [hcount]
        have harith : i + 1 + k - (cnt + 1 + countLabels (List.take k rest)) =
            i + (k + 1) - (cnt + (countLabels (List.take k rest) + 1)) := by omega
        rw [harith]
      · rw [if_neg hl]
        rw [ih k hk' (i + 1) cnt t hlab huniq']
        have hcount : countLabels (List.take (k + 1) (line :: rest)) =
            countLabels (List.take k rest) := by
          simp [countLabels, List.take_succ_cons, List.filter_cons, hl]
        rw [hcount]
        have harith : i + 1 + k - (cnt + countLabels (List.take k rest)) =
            i + (k + 1) - (cnt + countLabels (List.take k rest)) := by omega
        rw [harith]

/-- C6: after the label pre-pass, a line delimited as `(name)` (whose name no
later label line rebinds) binds `name` to its cleaned-line index minus the
number of labels seen before it — the index of the next real instruction in
the compacted output array; in particular a label on the very first line
resolves to 0, and the binding exists before decode, so forward references
resolve. -/
theorem c6_label_binds_next_instruction_index (lines : List Line) (t : Table)
    (k : Nat) (hk : k < lines.length)
    (hlab : isLabelLine (lines.get ⟨k, hk⟩) = true)
    (huniq : ∀ (j : Nat) (hj : j < lines.length), k < j →
      isLabelLine (lines.get ⟨j, hj⟩) = true →
      labelName (lines.get ⟨j, hj⟩) ≠ labelName (lines.get ⟨k, hk⟩)) :
    labelPass lines 0 0 t (labelName (lines.get ⟨k, hk⟩)) =
      some ((k - countLabels (lines.take k)) % 65536) := by
  have h := labelPass_formula lines k hk 0 0 t hlab huniq
  simpa using h

/-- C6 witness: in the forward-reference program `@END`, `0;JMP`, `D=1`,
`(END)`, `D=1`, the label at cleaned index 3 binds `END` to 3 (the
post-compaction index of the final instruction, referenced back at line 0);
and in `(LOOP)`, `D=1` the first-line label binds `LOOP` to 0. -/
theorem c6_witness :
    labelPass linesFwd 0 0 (fun _ => none)
        (labelName (linesFwd.get ⟨3, by decide⟩)) =
      some ((3 - countLabels (linesFwd.take 3)) % 65536) ∧
    labelPass linesLbl0 0 0 (fun _ => none)
        (labelName (linesLbl0.get ⟨0, by decide⟩)) =
      some ((0 - countLabels (linesLbl0.take 0)) % 65536) :=
  ⟨c6_label_binds_next_instruction_index linesFwd (fun _ => none) 3 (by decide)
      (by decide) (by decide),
   c6_label_binds_next_instruction_index linesLbl0 (fun _ => none) 0 (by decide)
      (by decide) (by decide)⟩

/-- C7: in the variable pre-pass, the first unrecognized non-numeric `@name`
is bound to address 16, a purely numeric `@16` is bound directly to its
literal without advancing the cursor, the next distinct non-numeric name gets
17, and a repeated `@name` changes nothing (same address, cursor ends at
18). -/
theorem c7_variable_allocation (l1 l3 : Line) (t0 : SymbolTable)
    (h1at : startsWithChar l1 '@' = true)
    (h1num : parseU16 (l1.drop 1) = none)
    (h1tab : t0.table (l1.drop 1) = none)
    (h3at : startsWithChar l3 '@' = true)
    (h3num : parseU16 (l3.drop 1) = none)
    (h3tab : t0.table (l3.drop 1) = none)
    (hne : l1.drop 1 ≠ l3.drop 1)
    (hlit : t0.table ['1', '6'] = none)
    (hcur : t0.current_variable = 16) :
    (variablePass [l1, ['@', '1', '6'], l3, l1] t0).table (l1.drop 1) = some 16 ∧
    (variablePass [l1, ['@', '1', '6'], l3, l1] t0).table ['1', '6'] = some 16 ∧
    (variablePass [l1, ['@', '1', '6'], l3, l1] t0).table (l3.drop 1) = some 17 ∧
    (variablePass [l1, ['@', '1', '6'], l3, l1] t0).current_variable = 18 := by
  have hne1 : l1 ≠ [] := by
    intro h; rw [h] at h1at; exact absurd h1at (by decide)
  have hne3 : l3 ≠ [] := by
    intro h; rw [h] at h3at; exact absurd h3at (by decide)
  have h16l1 : l1.drop 1 ≠ ['1', '6'] := by
    intro h; rw [h] at h1num; exact absurd h1num (by decide)
  have h16l3 : l3.drop 1 ≠ ['1', '6'] := by
    intro h; rw [h] at h3num; exact absurd h3num (by decide)
  have hp16 : parseU16 (['1', '6'] : Line) = some 16 := by decide
  have hdrop16 : ((['@', '1', '6'] : Line).drop 1) = ['1', '6'] := rfl
  have hrun : variablePass [l1, ['@', '1', '6'], l3, l1] t0 =
      { table := tableInsert (tableInsert (tableInsert t0.table (l1.drop 1) 16)
          ['1', '6'] 16) (l3.drop 1) 17
      , current_variable := 18 } := by
    rw [variablePass, if_neg hne1,
      if_pos (show (startsWithChar l1 '@' &&
        (t0.table (l1.drop 1)).isNone) = true by rw [h1at, h1tab]; rfl)]
    rw [h1num]
    dsimp only
    rw [hcur]
    rw [variablePass, if_neg (by decide : ¬((['@', '1', '6'] : Line) = []))]
    rw [hdrop16]
    dsimp only
    rw [if_pos ?c2]
    case c2 =>
      show (startsWithChar ['@', '1', '6'] '@' &&
        ((tableInsert t0.table (l1.drop 1) 16) ['1', '6']).isNone) = true
      unfold tableInsert
      rw [if_neg (fun h => h16l1 h.symm), hlit]
      rfl
    rw [hp16]
    dsimp only
    rw [variablePass, if_neg hne3, if_pos ?c3]
    case c3 =>
      show (startsWithChar l3 '@' &&
        ((tableInsert (tableInsert t0.table (l1.drop 1) 16) ['1', '6'] 16)
          (l3.drop 1)).isNone) = true
      unfold tableInsert
      rw [if_neg h16l3, if_neg (fun h => hne h.symm), h3tab, h3at]
      rfl
    rw [h3num]
    dsimp only
    rw [variablePass, if_neg hne1, if_neg ?c4]
    case c4 =>
      show ¬ ((startsWithChar l1 '@' &&
        ((tableInsert (tableInsert (tableInsert t0.table (l1.drop 1) 16)
          ['1', '6'] 16) (l3.drop 1) 17) (l1.drop 1)).isNone) = true)
      unfold tableInsert
      rw [if_neg hne, if_neg h16l1, if_pos rfl]
      simp
    rw [variablePass]
  rw [hrun]
  refine ⟨?_, ?_, ?_, rfl⟩
  · show (tableInsert (tableInsert (tableInsert t0.table (l1.drop 1) 16)
      ['1', '6'] 16) (l3.drop 1) 17) (l1.drop 1) = some 16
    unfold tableInsert
    rw [if_neg hne, if_neg h16l1, if_pos rfl]
  · show (tableInsert (tableInsert (tableInsert t0.table (l1.drop 1) 16)
      ['1', '6'] 16) (l3.drop 1) 17) ['1', '6'] = some 16
    unfold tableInsert
    rw [if_neg (fun h => h16l3 h.symm), if_pos rfl]
  · show (tableInsert (tableInsert (tableInsert t0.table (l1.drop 1) 16)
      ['1', '6'] 16) (l3.drop 1) 17) (l3.drop 1) = some 17
    unfold tableInsert
    rw [if_pos rfl]

/-- C7 witness: with the seeded table, `@i`, `@16`, `@j`, `@i` bind `i` to
16, the literal `16` to 16, `j` to 17, and leave the cursor at 18. -/
theorem c7_witness :
    (variablePass [['@', 'i'], ['@', '1', '6'], ['@', 'j'], ['@', 'i']]
        SymbolTable.new).table ((['@', 'i'] : Line).drop 1) = some 16 ∧
    (variablePass [['@', 'i'], ['@', '1', '6'], ['@', 'j'], ['@', 'i']]
        SymbolTable.new).table ['1', '6'] = some 16 ∧
    (variablePass [['@', 'i'], ['@', '1', '6'], ['@', 'j'], ['@', 'i']]
        SymbolTable.new).table ((['@', 'j'] : Line).drop 1) = some 17 ∧
    (variablePass [['@', 'i'], ['@', '1', '6'], ['@', 'j'], ['@', 'i']]
        SymbolTable.new).current_variable = 18 :=
  c7_variable_allocation ['@', 'i'] ['@', 'j'] SymbolTable.new
    (by decide) (by decide) (by decide) (by decide) (by decide) (by decide)
    (by decide) (by decide) (by decide)

end Hack
